import Mathlib

/-!
Verification of the rideau-canal-dashboard server (`src/server.js`).

The development shallowly embeds the location-resolution and
status-aggregation logic of the Express server: the reading normalizer
`normalizeDoc`, the location-variant resolver, the latest-reading fetcher
`getLatestData`, the history endpoint, and the `/api/status` aggregator.
Timestamps (`windowEnd`) are modelled as integers (ISO-8601 strings compare
lexicographically, hence chronologically, so integer order is faithful).
The Cosmos container is modelled as an optional `Store`: a list of raw
documents together with the set of location names whose queries throw.
-/

namespace RideauCanal

/-- The JSON value stored in a document's `location` field: a string, a
present non-string value, or absent (`undefined`). -/
inductive LocField where
  | str (s : String)
  | nonString
  | absent
deriving DecidableEq, Repr

/-- A raw Cosmos DB document, with the fields `server.js` reads.
`windowEnd` is the aggregation-window end instant (always present on
Stream Analytics aggregates; the queries sort and filter on it).
`timestamp`, the measurement fields and `safetyStatus` may be absent. -/
structure RawDoc where
  location : LocField
  windowEnd : Int
  timestamp : Option Int
  avgIceThickness : Option Int
  avgSurfaceTemperature : Option Int
  maxSnowAccumulation : Option Int
  avgExternalTemperature : Option Int
  safetyStatus : Option String
  readingCount : Option Int
deriving DecidableEq, Repr

/-- The dashboard's normalized reading shape produced by `normalizeDoc`. -/
structure NormDoc where
  location : String
  timestamp : Option Int
  avgIceThickness : Option Int
  avgSurfaceTemperature : Option Int
  maxSnowAccumulation : Option Int
  avgExternalTemperature : Option Int
  safetyStatus : Option String
  readingCount : Option Int
deriving DecidableEq, Repr

/-- One pass of the regex replacement `.replace(/\s+/g, "-")`: each maximal
run of whitespace characters becomes a single hyphen.  The boolean flag
records whether we are inside a whitespace run already replaced. -/
def collapseWsAux : Bool → List Char → List Char
  | _, [] => []
  | inRun, c :: rest =>
    if c.isWhitespace then
      (if inRun then [] else ['-']) ++ collapseWsAux true rest
    else
      c :: collapseWsAux false rest

/-- JavaScript `String.prototype.toLowerCase()`: lower-case the string
character by character. -/
def jsToLower (s : String) : String :=
  String.mk (s.data.map Char.toLower)

/-- `raw.location.toLowerCase().replace(/'/g, "").replace(/\s+/g, "-")`
from `normalizeDoc` in `server.js`. -/
def normalizeLocation (s : String) : String :=
  String.mk (collapseWsAux false ((jsToLower s).data.filter (fun c => c ≠ '\'')))

/-- JavaScript `a || b` on the pair `raw.windowEnd || raw.timestamp`:
`windowEnd` is a number here, falsy exactly when it is `0`. -/
def jsOrTimestamp (windowEnd : Int) (timestamp : Option Int) : Option Int :=
  if windowEnd = 0 then timestamp else some windowEnd

/-- `normalizeDoc(raw)` from `server.js`.  The input `none` models a
null/undefined argument (`if (!raw) return null`).  Reading
`raw.location.toLowerCase()` throws a `TypeError` when `location` is
absent or not a string; the `Except` error models that thrown exception. -/
def normalizeDoc (raw : Option RawDoc) : Except String (Option NormDoc) :=
  match raw with
  | none => .ok none
  | some r =>
    match r.location with
    | .str s =>
      .ok (some {
        location := normalizeLocation s
        timestamp := jsOrTimestamp r.windowEnd r.timestamp
        avgIceThickness := r.avgIceThickness
        avgSurfaceTemperature := r.avgSurfaceTemperature
        maxSnowAccumulation := r.maxSnowAccumulation
        avgExternalTemperature := r.avgExternalTemperature
        safetyStatus := r.safetyStatus
        readingCount := r.readingCount })
    | .nonString => .error "TypeError: raw.location.toLowerCase is not a function"
    | .absent => .error "TypeError: Cannot read properties of undefined"

/-- JavaScript `Array.prototype.filter(Boolean)` on an array of
string-or-null entries: drops `null` and the falsy empty string. -/
def jsFilterTruthy (l : List (Option String)) : List String :=
  (l.filterMap id).filter (fun s => s ≠ "")

/-- The `locationVariants` array built (identically) in `getLatestData`
and in the `/api/history/:location` handler:
`[locationKey, aliasOrNull].filter(Boolean)`. -/
def locationVariants (locationKey : String) : List String :=
  jsFilterTruthy
    [some locationKey,
     if locationKey = "dows-lake" then some "Dow's Lake"
     else if locationKey = "fifth-avenue" then some "Fifth Avenue"
     else if locationKey = "nac" then some "NAC"
     else none]

/-- The Cosmos container's observable behaviour for this server: the
stored documents, plus the set of location names whose parameterized
query throws (modelling transient store-side errors per variant). -/
structure Store where
  docs : List RawDoc
  failing : List String
deriving Repr

/-- The documents matching `WHERE c.location = @loc` for a string `loc`. -/
def matchingDocs (store : Store) (loc : String) : List RawDoc :=
  store.docs.filter (fun d => d.location = LocField.str loc)

/-- Keep the newer of a candidate document and a running maximum. -/
def pickNewer (d : RawDoc) : Option RawDoc → Option RawDoc
  | none => some d
  | some m => if m.windowEnd > d.windowEnd then some m else some d

/-- `ORDER BY c.windowEnd DESC OFFSET 0 LIMIT 1` over a document list:
the first document carrying the maximal `windowEnd`. -/
def newestDoc : List RawDoc → Option RawDoc
  | [] => none
  | d :: rest => pickNewer d (newestDoc rest)

/-- The latest-reading query of `getLatestData`:
`SELECT * FROM c WHERE c.location = @loc ORDER BY c.windowEnd DESC
OFFSET 0 LIMIT 1`, or a thrown store error for a failing variant. -/
def queryLatest (store : Store) (loc : String) : Except String (List RawDoc) :=
  if loc ∈ store.failing then .error "store error"
  else .ok ((newestDoc (matchingDocs store loc)).toList)

/-- The `for (const loc of locationVariants)` loop of `getLatestData`,
over an arbitrary per-variant fetch (the code treats
`container.items.query(..).fetchAll()` as an opaque call): each
variant's query and the `normalizeDoc` call run inside
`try { ... } catch`, so a thrown query or normalization error is logged
and the loop continues with the next variant.  A variant with
`resources.length > 0` returns `normalizeDoc(resources[0])`. -/
def tryVariants (fetch : String → Except String (List RawDoc)) :
    List String → Option NormDoc
  | [] => none
  | loc :: rest =>
    match fetch loc with
    | .error _ => tryVariants fetch rest
    | .ok [] => tryVariants fetch rest
    | .ok (r :: _) =>
      match normalizeDoc (some r) with
      | .ok nd => nd
      | .error _ => tryVariants fetch rest

/-- `getLatestData(locationKey)` from `server.js`.  The container handle
is `Option Store`: `none` models the never-initialized handle, for which
the function logs and returns `null`.  After the variant loop falls
through (only diagnostics run there), the function returns `null`. -/
def getLatestData (container : Option Store) (locationKey : String) : Option NormDoc :=
  match container with
  | none => none
  | some store => tryVariants (queryLatest store) (locationVariants locationKey)

/-- An Express JSON route outcome: a JSON body with a status code, an
error body `{error: ...}` with a status code, or a thrown exception that
escapes the handler. -/
inductive RouteResult (α : Type) where
  | json (status : Nat) (body : α)
  | errorJson (status : Nat) (message : String)
  | thrown (msg : String)
deriving DecidableEq, Repr

/-- The `GET /api/data/:location` handler: `404 {error: "No data for
location"}` when `getLatestData` returns null, else the reading. -/
def dataLocationRoute (container : Option Store) (location : String) :
    RouteResult NormDoc :=
  match getLatestData container location with
  | none => .errorJson 404 "No data for location"
  | some d => .json 200 d

/-- JavaScript `parseInt(s)`: skip leading whitespace, accept an optional
sign, read the longest decimal-digit prefix; `none` models `NaN` when no
digit is read. -/
def jsParseInt (s : String) : Option Int :=
  let cs := s.data.dropWhile Char.isWhitespace
  let signAndRest : Bool × List Char :=
    match cs with
    | '-' :: rest => (true, rest)
    | '+' :: rest => (false, rest)
    | _ => (false, cs)
  let ds := signAndRest.2.takeWhile Char.isDigit
  if ds.isEmpty then none
  else
    let n : Nat := ds.foldl (fun acc c => acc * 10 + (c.toNat - '0'.toNat)) 0
    some (if signAndRest.1 then -(n : Int) else (n : Int))

/-- `parseInt(req.query.hours) || 1` from the history handler.  An absent
query parameter is `undefined`, and `parseInt(undefined)` is `NaN`; both
`NaN` and the falsy result `0` coerce to `1`. -/
def jsHours (hoursParam : Option String) : Int :=
  match hoursParam with
  | none => 1
  | some s =>
    match jsParseInt s with
    | none => 1
    | some v => if v = 0 then 1 else v

/-- One hour in milliseconds; instants are modelled as Unix-epoch
milliseconds, matching `cutoff.setHours(cutoff.getHours() - hours)`. -/
def msPerHour : Int := 3600000

/-- The ascending `windowEnd` order used by `ORDER BY c.windowEnd ASC`. -/
def byWindowEnd (a b : RawDoc) : Prop := a.windowEnd ≤ b.windowEnd

instance : DecidableRel byWindowEnd := fun a b => Int.decLe a.windowEnd b.windowEnd

instance : IsTotal RawDoc byWindowEnd :=
  ⟨fun a b => Int.le_total a.windowEnd b.windowEnd⟩

instance : IsTrans RawDoc byWindowEnd :=
  ⟨fun _ _ _ hab hbc => le_trans hab hbc⟩

/-- `ORDER BY c.windowEnd ASC` over a document list (a stable sort). -/
def sortByWindowEnd (l : List RawDoc) : List RawDoc :=
  l.insertionSort byWindowEnd

/-- The history query of `/api/history/:location`:
`SELECT * FROM c WHERE c.location = @loc AND c.windowEnd >= @cut
ORDER BY c.windowEnd ASC`, or a thrown store error for a failing
variant. -/
def queryHistory (store : Store) (loc : String) (cutoff : Int) :
    Except String (List RawDoc) :=
  if loc ∈ store.failing then .error "store error"
  else .ok (sortByWindowEnd
    ((matchingDocs store loc).filter (fun d => cutoff ≤ d.windowEnd)))

/-- The variant loop of the history handler, over an arbitrary
per-variant fetch: `allResources` starts empty; the first variant whose
query returns a non-empty result set is taken whole (`break`); a thrown
query error is caught and the loop continues. -/
def historyLoop (fetch : String → Except String (List RawDoc)) :
    List String → List RawDoc
  | [] => []
  | loc :: rest =>
    match fetch loc with
    | .error _ => historyLoop fetch rest
    | .ok [] => historyLoop fetch rest
    | .ok (r :: rs) => r :: rs

/-- `allResources.map(normalizeDoc)`: left-to-right, propagating the
first thrown normalization error. -/
def mapNormalize : List RawDoc → Except String (List (Option NormDoc))
  | [] => .ok []
  | r :: rest =>
    match normalizeDoc (some r) with
    | .error e => .error e
    | .ok nd =>
      match mapNormalize rest with
      | .error e => .error e
      | .ok tl => .ok (nd :: tl)

/-- The tail of the history handler:
`res.json(allResources.map(normalizeDoc))`.  The map runs *outside* any
try/catch, so a document failing normalization throws out of the
handler instead of being skipped. -/
def historyRespond (allResources : List RawDoc) :
    RouteResult (List (Option NormDoc)) :=
  match mapNormalize allResources with
  | .ok body => .json 200 body
  | .error e => .thrown e

/-- The `GET /api/history/:location` handler.  `now` is the instant
`new Date()` observed by the handler.  With no container handle it
responds `500 {error: "Container not initialized"}`. -/
def historyRoute (container : Option Store) (location : String)
    (hoursParam : Option String) (now : Int) :
    RouteResult (List (Option NormDoc)) :=
  match container with
  | none => .errorJson 500 "Container not initialized"
  | some store =>
    let hours := jsHours hoursParam
    let cutoff := now - hours * msPerHour
    let allResources :=
      historyLoop (fun loc => queryHistory store loc cutoff)
        (locationVariants location)
    historyRespond allResources

/-- The fixed location list iterated by `/api/data` and `/api/status`. -/
def canonicalLocations : List String := ["dows-lake", "fifth-avenue", "nac"]

/-- The mutable state of the `/api/status` handler's location loop. -/
structure StatusAcc where
  locationData : List (String × NormDoc)
  totalLocations : Nat
  safeLocations : Nat
  cautionLocations : Nat
  unsafeLocations : Nat
  latestTimestamp : Option Int
deriving DecidableEq, Repr

/-- The initial values of the `/api/status` handler's locals. -/
def initAcc : StatusAcc :=
  { locationData := [], totalLocations := 0, safeLocations := 0,
    cautionLocations := 0, unsafeLocations := 0, latestTimestamp := none }

/-- `(data.safetyStatus || "").toLowerCase()`: an absent field and the
falsy empty string both yield `""`. -/
def classifyKey (safetyStatus : Option String) : String :=
  jsToLower (safetyStatus.getD "")

/-- `if (data.timestamp) { const ts = new Date(data.timestamp);
if (!latestTimestamp || ts > latestTimestamp) latestTimestamp = ts }`:
a falsy timestamp is skipped, otherwise the running maximum is kept. -/
def jsLatest (cur : Option Int) (t : Option Int) : Option Int :=
  match t with
  | none => cur
  | some ts =>
    if ts = 0 then cur
    else
      match cur with
      | none => some ts
      | some c => if ts > c then some ts else cur

/-- One iteration of the `/api/status` location loop for a fetched
reading: a `null` reading is skipped entirely; a present reading
increments `totalLocations`, exactly one classification counter
(`safe`/`caution`, any other lower-cased value counts unsafe), and
updates the running maximum timestamp when `data.timestamp` is truthy. -/
def statusStep (acc : StatusAcc) (loc : String) (data : Option NormDoc) :
    StatusAcc :=
  match data with
  | none => acc
  | some d =>
    let acc1 := { acc with
      locationData := acc.locationData ++ [(loc, d)],
      totalLocations := acc.totalLocations + 1 }
    let status := classifyKey d.safetyStatus
    let acc2 :=
      if status = "safe" then
        { acc1 with safeLocations := acc1.safeLocations + 1 }
      else if status = "caution" then
        { acc1 with cautionLocations := acc1.cautionLocations + 1 }
      else
        { acc1 with unsafeLocations := acc1.unsafeLocations + 1 }
    { acc2 with latestTimestamp := jsLatest acc2.latestTimestamp d.timestamp }

/-- The `/api/status` location loop, folded over the fetched latest
readings in location order. -/
def aggregate (readings : List (String × Option NormDoc)) : StatusAcc :=
  readings.foldl (fun acc p => statusStep acc p.1 p.2) initAcc

/-- The system-status derivation chain of `/api/status`:
`let systemStatus = "Unknown"` followed by the if/else-if cascade. -/
def deriveSystemStatus (totalLocations safeLocations cautionLocations
    unsafeLocations : Nat) : String :=
  if totalLocations = 0 then "No Data"
  else if unsafeLocations > 0 then "Unsafe"
  else if cautionLocations > 0 then "Caution"
  else if safeLocations = totalLocations then "Safe"
  else "Unknown"

/-- The JSON body sent by `/api/status`. -/
structure StatusResponse where
  systemStatus : String
  totalLocations : Nat
  safeLocations : Nat
  cautionLocations : Nat
  unsafeLocations : Nat
  lastUpdate : Option Int
  locations : List (String × NormDoc)
deriving DecidableEq, Repr

/-- Assemble the `/api/status` response body from the loop state. -/
def statusResponseOf (acc : StatusAcc) : StatusResponse :=
  { systemStatus := deriveSystemStatus acc.totalLocations acc.safeLocations
      acc.cautionLocations acc.unsafeLocations
    totalLocations := acc.totalLocations
    safeLocations := acc.safeLocations
    cautionLocations := acc.cautionLocations
    unsafeLocations := acc.unsafeLocations
    lastUpdate := acc.latestTimestamp
    locations := acc.locationData }

/-- The `GET /api/status` handler: fetch the latest reading for each of
the three canonical locations, aggregate, and derive the system status. -/
def statusRoute (container : Option Store) : StatusResponse :=
  statusResponseOf (aggregate
    (canonicalLocations.map (fun loc => (loc, getLatestData container loc))))

/-- The paths registered on the Express `app` in `server.js`, in
registration order (`app.get` calls). -/
def registeredRoutes : List String :=
  ["/api/data", "/api/data/:location", "/api/history/:location",
   "/api/status", "/api/debug", "/"]

/-- Classification of a reading's `safetyStatus` as the specification
words it: case-insensitively, exactly `safe` counts safe, exactly
`caution` counts caution, every other value — absent included — counts
unsafe.  Stated separately from the code's `classifyKey` so the
aggregation counters can be compared against the spec's rule. -/
def specSafetyClass (s : Option String) : String :=
  match s with
  | none => "unsafe"
  | some v =>
    if jsToLower v = "safe" then "safe"
    else if jsToLower v = "caution" then "caution"
    else "unsafe"

/-- A sample raw aggregate document used in concrete test instances. -/
def sampleDoc (loc : LocField) (we : Int) (st : Option String) : RawDoc :=
  { location := loc, windowEnd := we, timestamp := none,
    avgIceThickness := some 30, avgSurfaceTemperature := some (-5),
    maxSnowAccumulation := some 2, avgExternalTemperature := some (-10),
    safetyStatus := st, readingCount := some 12 }

/-- A sample normalized reading used in concrete test instances. -/
def sampleReading (loc : String) (ts : Option Int) (st : Option String) :
    NormDoc :=
  { location := loc, timestamp := ts,
    avgIceThickness := some 30, avgSurfaceTemperature := some (-5),
    maxSnowAccumulation := some 2, avgExternalTemperature := some (-10),
    safetyStatus := st, readingCount := some 12 }

/-! ## Helper lemmas on the latest-reading fetcher -/

deriving instance DecidableEq for Except

/-- A fetch outcome that the variant loops skip: a thrown query error or
an empty result set. -/
def fetchMisses (fetch : String → Except String (List RawDoc)) (loc : String) :
    Prop :=
  (∃ e, fetch loc = .error e) ∨ fetch loc = .ok []

/-- A variant whose latest-reading query throws or returns no rows. -/
def variantMisses (store : Store) (loc : String) : Prop :=
  queryLatest store loc = .error "store error" ∨ queryLatest store loc = .ok []

instance (store : Store) (loc : String) : Decidable (variantMisses store loc) := by
  unfold variantMisses
  infer_instance

lemma variantMisses_fetch {store : Store} {loc : String}
    (h : variantMisses store loc) : fetchMisses (queryLatest store) loc := by
  rcases h with h | h
  · exact Or.inl ⟨_, h⟩
  · exact Or.inr h

lemma getLatestData_some (store : Store) (key : String) :
    getLatestData (some store) key =
      tryVariants (queryLatest store) (locationVariants key) :=
  rfl

lemma tryVariants_cons_miss (fetch : String → Except String (List RawDoc))
    (loc : String) (rest : List String) (h : fetchMisses fetch loc) :
    tryVariants fetch (loc :: rest) = tryVariants fetch rest := by
  rcases h with ⟨e, h⟩ | h <;> simp [tryVariants, h]

lemma tryVariants_append_misses (fetch : String → Except String (List RawDoc))
    (pre rest : List String) (h : ∀ u ∈ pre, fetchMisses fetch u) :
    tryVariants fetch (pre ++ rest) = tryVariants fetch rest := by
  induction pre with
  | nil => rfl
  | cons u pre ih =>
    rw [List.cons_append, tryVariants_cons_miss fetch u _ (h u (by simp))]
    exact ih (fun v hv => h v (by simp [hv]))

lemma tryVariants_cons_hit (fetch : String → Except String (List RawDoc))
    (loc : String) (rest : List String)
    (r : RawDoc) (rs : List RawDoc) (nd : Option NormDoc)
    (hq : fetch loc = .ok (r :: rs))
    (hn : normalizeDoc (some r) = .ok nd) :
    tryVariants fetch (loc :: rest) = nd := by
  simp [tryVariants, hq, hn]

lemma tryVariants_cons_badnorm (fetch : String → Except String (List RawDoc))
    (loc : String) (rest : List String)
    (r : RawDoc) (rs : List RawDoc) (e : String)
    (hq : fetch loc = .ok (r :: rs))
    (hn : normalizeDoc (some r) = .error e) :
    tryVariants fetch (loc :: rest) = tryVariants fetch rest := by
  simp [tryVariants, hq, hn]

lemma newestDoc_cons (d : RawDoc) (rest : List RawDoc) :
    newestDoc (d :: rest) = pickNewer d (newestDoc rest) :=
  rfl

lemma newestDoc_mem : ∀ (l : List RawDoc) (r : RawDoc),
    newestDoc l = some r → r ∈ l := by
  intro l
  induction l with
  | nil =>
    intro r h
    exact absurd h (by simp [newestDoc])
  | cons d rest ih =>
    intro r h
    rw [newestDoc_cons] at h
    cases hrest : newestDoc rest with
    | none =>
      rw [hrest] at h
      obtain rfl : d = r := by simpa [pickNewer] using h
      exact List.mem_cons_self d rest
    | some m =>
      rw [hrest] at h
      by_cases hc : m.windowEnd > d.windowEnd
      · obtain rfl : m = r := by simpa [pickNewer, hc] using h
        exact List.mem_cons_of_mem d (ih m hrest)
      · obtain rfl : d = r := by simpa [pickNewer, hc] using h
        exact List.mem_cons_self d rest

lemma newestDoc_max : ∀ (l : List RawDoc) (r : RawDoc),
    newestDoc l = some r → ∀ d ∈ l, d.windowEnd ≤ r.windowEnd := by
  intro l
  induction l with
  | nil =>
    intro r h
    exact absurd h (by simp [newestDoc])
  | cons d rest ih =>
    intro r h
    rw [newestDoc_cons] at h
    cases hrest : newestDoc rest with
    | none =>
      obtain rfl : rest = [] := by
        cases rest with
        | nil => rfl
        | cons e t =>
          rw [newestDoc_cons] at hrest
          cases hrest2 : newestDoc t with
          | none => rw [hrest2] at hrest; simp [pickNewer] at hrest
          | some m =>
            rw [hrest2] at hrest
            by_cases hc : m.windowEnd > e.windowEnd <;>
              simp [pickNewer, hc] at hrest
      rw [hrest] at h
      obtain rfl : d = r := by simpa [pickNewer] using h
      simp
    | some m =>
      rw [hrest] at h
      have hrest_le := ih m hrest
      by_cases hc : m.windowEnd > d.windowEnd
      · obtain rfl : m = r := by simpa [pickNewer, hc] using h
        intro e he
        rcases List.mem_cons.mp he with rfl | he
        · exact le_of_lt hc
        · exact hrest_le e he
      · obtain rfl : d = r := by simpa [pickNewer, hc] using h
        intro e he
        rcases List.mem_cons.mp he with rfl | he
        · exact le_refl _
        · exact le_trans (hrest_le e he) (not_lt.mp hc)

lemma queryLatest_ok_cons {store : Store} {loc : String} {r : RawDoc}
    {rs : List RawDoc} (h : queryLatest store loc = .ok (r :: rs)) :
    rs = [] ∧ r ∈ matchingDocs store loc ∧
      ∀ d ∈ matchingDocs store loc, d.windowEnd ≤ r.windowEnd := by
  unfold queryLatest at h
  by_cases hf : loc ∈ store.failing
  · rw [if_pos hf] at h
    cases h
  · rw [if_neg hf] at h
    have h' : (newestDoc (matchingDocs store loc)).toList = r :: rs := by
      injection h
    cases hn : newestDoc (matchingDocs store loc) with
    | none => rw [hn] at h'; cases h'
    | some m =>
      rw [hn] at h'
      have hm : m = r ∧ [] = rs := by
        simpa [Option.toList] using h'
      obtain ⟨h1, h2⟩ := hm
      subst h1
      subst h2
      exact ⟨rfl, newestDoc_mem _ _ hn, newestDoc_max _ _ hn⟩

/-! ## Helper lemmas on the history fetcher -/

/-- A history variant whose query throws or matches no rows. -/
def historyVariantMisses (store : Store) (loc : String) (cutoff : Int) : Prop :=
  queryHistory store loc cutoff = .error "store error" ∨
    queryHistory store loc cutoff = .ok []

instance (store : Store) (loc : String) (cutoff : Int) :
    Decidable (historyVariantMisses store loc cutoff) := by
  unfold historyVariantMisses
  infer_instance

lemma historyVariantMisses_fetch {store : Store} {loc : String} {cutoff : Int}
    (h : historyVariantMisses store loc cutoff) :
    fetchMisses (fun l => queryHistory store l cutoff) loc := by
  rcases h with h | h
  · exact Or.inl ⟨_, h⟩
  · exact Or.inr h

lemma historyLoop_cons_miss (fetch : String → Except String (List RawDoc))
    (loc : String) (rest : List String) (h : fetchMisses fetch loc) :
    historyLoop fetch (loc :: rest) = historyLoop fetch rest := by
  rcases h with ⟨e, h⟩ | h <;> simp [historyLoop, h]

lemma historyLoop_append_misses (fetch : String → Except String (List RawDoc))
    (pre rest : List String) (h : ∀ u ∈ pre, fetchMisses fetch u) :
    historyLoop fetch (pre ++ rest) = historyLoop fetch rest := by
  induction pre with
  | nil => rfl
  | cons u pre ih =>
    rw [List.cons_append, historyLoop_cons_miss fetch u _ (h u (by simp))]
    exact ih (fun v hv => h v (by simp [hv]))

lemma historyLoop_all_misses (fetch : String → Except String (List RawDoc))
    (vs : List String) (h : ∀ u ∈ vs, fetchMisses fetch u) :
    historyLoop fetch vs = [] := by
  have happ := historyLoop_append_misses fetch vs [] h
  simpa using happ

lemma historyLoop_cons_hit (fetch : String → Except String (List RawDoc))
    (loc : String) (rest : List String) (r : RawDoc) (rs : List RawDoc)
    (hq : fetch loc = .ok (r :: rs)) :
    historyLoop fetch (loc :: rest) = r :: rs := by
  simp [historyLoop, hq]

lemma queryHistory_ok_char {store : Store} {loc : String} {cutoff : Int}
    {l : List RawDoc} (h : queryHistory store loc cutoff = .ok l) :
    (∀ d, d ∈ l ↔ d ∈ matchingDocs store loc ∧ cutoff ≤ d.windowEnd) ∧
      l.Sorted byWindowEnd := by
  unfold queryHistory at h
  by_cases hf : loc ∈ store.failing
  · rw [if_pos hf] at h
    cases h
  · rw [if_neg hf] at h
    have hl : sortByWindowEnd
        ((matchingDocs store loc).filter (fun d => cutoff ≤ d.windowEnd)) = l := by
      injection h
    subst hl
    constructor
    · intro d
      unfold sortByWindowEnd
      rw [List.mem_insertionSort]
      simp [List.mem_filter]
    · exact List.sorted_insertionSort byWindowEnd _

lemma historyRoute_some (store : Store) (location : String)
    (q : Option String) (now : Int) :
    historyRoute (some store) location q now =
      historyRespond
        (historyLoop (fun loc => queryHistory store loc (now - jsHours q * msPerHour))
          (locationVariants location)) :=
  rfl

/-- Concrete store used as a test instance: the canonical-key variant
query throws, and the data lives under the display-name alias. -/
def demoStore : Store :=
  { docs := [sampleDoc (.str "Dow's Lake") 1700000000000 (some "Safe")],
    failing := ["dows-lake"] }

/-! ## Helper lemmas on the status aggregator -/

/-- An entry of the fetched-readings list carrying a present reading. -/
def entryPresent (p : String × Option NormDoc) : Bool :=
  p.2.isSome

/-- A present reading the code's classifier counts as safe. -/
def entrySafe (p : String × Option NormDoc) : Bool :=
  match p.2 with
  | some d => classifyKey d.safetyStatus == "safe"
  | none => false

/-- A present reading the code's classifier counts as caution. -/
def entryCaution (p : String × Option NormDoc) : Bool :=
  match p.2 with
  | some d => classifyKey d.safetyStatus == "caution"
  | none => false

/-- A present reading the code's classifier counts as unsafe. -/
def entryUnsafe (p : String × Option NormDoc) : Bool :=
  match p.2 with
  | some d =>
    !(classifyKey d.safetyStatus == "safe") &&
      !(classifyKey d.safetyStatus == "caution")
  | none => false

/-- A present reading whose spec-side classification is `cls`. -/
def entrySpecClass (cls : String) (p : String × Option NormDoc) : Bool :=
  match p.2 with
  | some d => specSafetyClass d.safetyStatus == cls
  | none => false

lemma classify_spec_code (s : Option String) :
    (specSafetyClass s = "safe" ↔ classifyKey s = "safe") ∧
    (specSafetyClass s = "caution" ↔ classifyKey s = "caution") ∧
    (specSafetyClass s = "unsafe" ↔
      (classifyKey s ≠ "safe" ∧ classifyKey s ≠ "caution")) := by
  cases s with
  | none =>
    refine ⟨?_, ?_, ?_⟩ <;> simp [specSafetyClass, classifyKey, jsToLower]
  | some v =>
    simp only [specSafetyClass, classifyKey, Option.getD]
    by_cases h1 : jsToLower v = "safe"
    · simp [h1]
    · by_cases h2 : jsToLower v = "caution" <;> simp [h1, h2]

lemma entrySpecClass_safe_eq : entrySpecClass "safe" = entrySafe := by
  funext p
  rcases p with ⟨loc, data⟩
  cases data with
  | none => rfl
  | some d =>
    simp [entrySpecClass, entrySafe, (classify_spec_code d.safetyStatus).1]

lemma entrySpecClass_caution_eq : entrySpecClass "caution" = entryCaution := by
  funext p
  rcases p with ⟨loc, data⟩
  cases data with
  | none => rfl
  | some d =>
    simp [entrySpecClass, entryCaution, (classify_spec_code d.safetyStatus).2.1]

lemma entrySpecClass_unsafe_eq : entrySpecClass "unsafe" = entryUnsafe := by
  funext p
  rcases p with ⟨loc, data⟩
  cases data with
  | none => rfl
  | some d =>
    simp only [entrySpecClass, entryUnsafe]
    rw [Bool.eq_iff_iff]
    simp [(classify_spec_code d.safetyStatus).2.2]

lemma statusStep_none (acc : StatusAcc) (loc : String) :
    statusStep acc loc none = acc :=
  rfl

lemma statusStep_some (acc : StatusAcc) (loc : String) (d : NormDoc) :
    (statusStep acc loc (some d)).totalLocations = acc.totalLocations + 1 ∧
    (statusStep acc loc (some d)).safeLocations =
      acc.safeLocations +
        (if classifyKey d.safetyStatus = "safe" then 1 else 0) ∧
    (statusStep acc loc (some d)).cautionLocations =
      acc.cautionLocations +
        (if classifyKey d.safetyStatus = "caution" then 1 else 0) ∧
    (statusStep acc loc (some d)).unsafeLocations =
      acc.unsafeLocations +
        (if classifyKey d.safetyStatus ≠ "safe" ∧
            classifyKey d.safetyStatus ≠ "caution" then 1 else 0) := by
  by_cases h1 : classifyKey d.safetyStatus = "safe"
  · simp [statusStep, h1]
  · by_cases h2 : classifyKey d.safetyStatus = "caution" <;>
      simp [statusStep, h1, h2]

lemma statusFold_counts :
    ∀ (l : List (String × Option NormDoc)) (acc : StatusAcc),
    ((l.foldl (fun a p => statusStep a p.1 p.2) acc).totalLocations =
      acc.totalLocations + l.countP entryPresent) ∧
    ((l.foldl (fun a p => statusStep a p.1 p.2) acc).safeLocations =
      acc.safeLocations + l.countP entrySafe) ∧
    ((l.foldl (fun a p => statusStep a p.1 p.2) acc).cautionLocations =
      acc.cautionLocations + l.countP entryCaution) ∧
    ((l.foldl (fun a p => statusStep a p.1 p.2) acc).unsafeLocations =
      acc.unsafeLocations + l.countP entryUnsafe) := by
  intro l
  induction l with
  | nil =>
    intro acc
    simp
  | cons p t ih =>
    obtain ⟨loc, data⟩ := p
    intro acc
    cases data with
    | none =>
      have ih' := ih acc
      simp only [List.foldl_cons, statusStep_none]
      refine ⟨?_, ?_, ?_, ?_⟩ <;>
        simp [List.countP_cons, entryPresent, entrySafe,
          entryCaution, entryUnsafe, ih'.1, ih'.2.1, ih'.2.2.1, ih'.2.2.2]
    | some d =>
      have hstep := statusStep_some acc loc d
      have ih' := ih (statusStep acc loc (some d))
      simp only [List.foldl_cons]
      refine ⟨?_, ?_, ?_, ?_⟩
      · rw [ih'.1, hstep.1, List.countP_cons]
        simp [entryPresent]
        omega
      · rw [ih'.2.1, hstep.2.1, List.countP_cons]
        by_cases h : classifyKey d.safetyStatus = "safe" <;>
          simp [entrySafe, h] <;> omega
      · rw [ih'.2.2.1, hstep.2.2.1, List.countP_cons]
        by_cases h : classifyKey d.safetyStatus = "caution" <;>
          simp [entryCaution, h] <;> omega
      · rw [ih'.2.2.2, hstep.2.2.2, List.countP_cons]
        by_cases h1 : classifyKey d.safetyStatus = "safe" <;>
          by_cases h2 : classifyKey d.safetyStatus = "caution" <;>
          simp [entryUnsafe, h1, h2] <;> omega

lemma aggregate_counts (l : List (String × Option NormDoc)) :
    (aggregate l).totalLocations = l.countP entryPresent ∧
    (aggregate l).safeLocations = l.countP entrySafe ∧
    (aggregate l).cautionLocations = l.countP entryCaution ∧
    (aggregate l).unsafeLocations = l.countP entryUnsafe := by
  have h := statusFold_counts l initAcc
  simpa [aggregate, initAcc] using h

lemma countP_classes_sum (l : List (String × Option NormDoc)) :
    l.countP entrySafe + l.countP entryCaution + l.countP entryUnsafe =
      l.countP entryPresent := by
  induction l with
  | nil => rfl
  | cons p t ih =>
    obtain ⟨loc, data⟩ := p
    cases data with
    | none =>
      simp [List.countP_cons, entrySafe, entryCaution, entryUnsafe,
        entryPresent, ih]
    | some d =>
      by_cases h1 : classifyKey d.safetyStatus = "safe"
      · simp [List.countP_cons, entrySafe, entryCaution, entryUnsafe,
          entryPresent, h1]
        omega
      · by_cases h2 : classifyKey d.safetyStatus = "caution" <;>
          simp [List.countP_cons, entrySafe, entryCaution, entryUnsafe,
            entryPresent, h1, h2] <;> omega

lemma deriveSystemStatus_of_sum {t s c u : Nat} (hsum : s + c + u = t) :
    deriveSystemStatus t s c u = "No Data" ∨
    deriveSystemStatus t s c u = "Unsafe" ∨
    deriveSystemStatus t s c u = "Caution" ∨
    deriveSystemStatus t s c u = "Safe" := by
  unfold deriveSystemStatus
  by_cases h0 : t = 0
  · simp [h0]
  · by_cases hu : u > 0
    · simp [h0, hu]
    · by_cases hc : c > 0
      · simp [h0, hu, hc]
      · have hs : s = t := by omega
        simp [h0, hu, hc, hs]

lemma normalizeDoc_str {r : RawDoc} {s : String}
    (hs : r.location = LocField.str s) :
    normalizeDoc (some r) = .ok (some
      { location := normalizeLocation s
        timestamp := jsOrTimestamp r.windowEnd r.timestamp
        avgIceThickness := r.avgIceThickness
        avgSurfaceTemperature := r.avgSurfaceTemperature
        maxSnowAccumulation := r.maxSnowAccumulation
        avgExternalTemperature := r.avgExternalTemperature
        safetyStatus := r.safetyStatus
        readingCount := r.readingCount }) := by
  simp [normalizeDoc, hs]

lemma mapNormalize_error_of_mem :
    ∀ (l : List RawDoc) (d : RawDoc), d ∈ l →
    (∃ e, normalizeDoc (some d) = .error e) →
    ∃ e, mapNormalize l = .error e := by
  intro l
  induction l with
  | nil =>
    intro d hd
    cases hd
  | cons a t ih =>
    intro d hd he
    rcases List.mem_cons.mp hd with rfl | hmem
    · obtain ⟨e, he⟩ := he
      exact ⟨e, by simp [mapNormalize, he]⟩
    · cases ha : normalizeDoc (some a) with
      | error e => exact ⟨e, by simp [mapNormalize, ha]⟩
      | ok nd =>
        obtain ⟨e, hm⟩ := ih d hmem he
        exact ⟨e, by simp [mapNormalize, ha, hm]⟩

/-! ## Claim theorems -/

/-- C1 (counterexample): with the container handle never initialized,
`GET /api/data/:location` answers `404 {error: "No data for location"}`
— not the HTTP 500 `StoreUnavailable` response the claim requires, and
indistinguishable from the `NoData` answer. -/
theorem unconfigured_latest_returns_404_not_500 :
    dataLocationRoute none "dows-lake" = .errorJson 404 "No data for location" ∧
    (RouteResult.errorJson 404 "No data for location" : RouteResult NormDoc) ≠
      .errorJson 500 "Container not initialized" :=
  ⟨rfl, by decide⟩

/-- C1 (amended): for every single-location latest-reading request with
an unconfigured store client, `getLatestData` returns `null` and the
endpoint responds 404 exactly as for `NoData`; the uninitialized store
is *not* surfaced as HTTP 500 on this endpoint (only the history
endpoint checks the handle). -/
theorem unconfigured_store_latest_treated_as_no_data :
    ∀ location : String,
      getLatestData none location = none ∧
      dataLocationRoute none location = .errorJson 404 "No data for location" :=
  fun _ => ⟨rfl, rfl⟩

/-- C3 (counterexample): normalizing `" Dow's   Lake "` does not yield
`"dows-lake"`: the leading and trailing whitespace runs are replaced by
hyphens, giving `"-dows-lake-"`. -/
theorem normalize_location_padded_input_not_canonical :
    normalizeLocation " Dow's   Lake " ≠ "dows-lake" ∧
    normalizeLocation " Dow's   Lake " = "-dows-lake-" := by
  exact ⟨by decide, by decide⟩

/-- C3 (amended): location normalization lower-cases, strips
apostrophes, and replaces every maximal whitespace run — leading and
trailing runs included — by a single hyphen; so `"Dow's Lake"`,
`"dows-lake"` and `"Dows Lake"` normalize to `"dows-lake"`, while
`" Dow's   Lake "` normalizes to `"-dows-lake-"`. -/
theorem normalize_location_examples :
    normalizeLocation "Dow's Lake" = "dows-lake" ∧
    normalizeLocation "dows-lake" = "dows-lake" ∧
    normalizeLocation "Dows Lake" = "dows-lake" ∧
    normalizeLocation " Dow's   Lake " = "-dows-lake-" := by
  refine ⟨?_, ?_, ?_, ?_⟩ <;> decide

/-- C6: contrary to the repository README's API documentation, no
`GET /api/health` route is registered on the Express app; requests to it
fall through to the framework's default 404. -/
theorem api_health_route_absent : "/api/health" ∉ registeredRoutes := by
  decide

/-- C8 (counterexample): the variant resolver is built with
`[locationKey, alias].filter(Boolean)`, and the empty string is falsy in
JavaScript, so the key `""` yields the empty variant sequence — not the
singleton `[""]` the claim requires for unknown keys. -/
theorem location_variants_empty_key :
    locationVariants "" = [] ∧ ([] : List String) ≠ [""] :=
  ⟨by decide, by decide⟩

/-- C8 (amended): for every *non-empty* key the resolver yields an
ordered, deduplicated variant sequence headed by the key itself, with
the known display-name alias second for the three canonical keys and a
singleton for any other key; the empty key yields `[]`. -/
theorem location_variants_order_dedup :
    locationVariants "dows-lake" = ["dows-lake", "Dow's Lake"] ∧
    locationVariants "fifth-avenue" = ["fifth-avenue", "Fifth Avenue"] ∧
    locationVariants "nac" = ["nac", "NAC"] ∧
    ∀ key : String, key ≠ "" →
      (locationVariants key).head? = some key ∧
      (locationVariants key).Nodup ∧
      (key ≠ "dows-lake" → key ≠ "fifth-avenue" → key ≠ "nac" →
        locationVariants key = [key]) := by
  refine ⟨by decide, by decide, by decide, ?_⟩
  intro key hne
  by_cases h1 : key = "dows-lake"
  · subst h1
    exact ⟨by decide, by decide, fun h _ _ => absurd rfl h⟩
  by_cases h2 : key = "fifth-avenue"
  · subst h2
    exact ⟨by decide, by decide, fun _ h _ => absurd rfl h⟩
  by_cases h3 : key = "nac"
  · subst h3
    exact ⟨by decide, by decide, fun _ _ h => absurd rfl h⟩
  have hv : locationVariants key = [key] := by
    simp [locationVariants, jsFilterTruthy, h1, h2, h3, hne]
  refine ⟨by rw [hv]; rfl, by rw [hv]; exact List.nodup_singleton key,
    fun _ _ _ => hv⟩

/-- C8 (witness): the amended resolver property at the concrete unknown
key `"rideau-falls"`. -/
theorem location_variants_order_dedup_witness :
    (locationVariants "rideau-falls").head? = some "rideau-falls" ∧
    (locationVariants "rideau-falls").Nodup ∧
    locationVariants "rideau-falls" = ["rideau-falls"] := by
  have h := location_variants_order_dedup.2.2.2 "rideau-falls" (by decide)
  exact ⟨h.1, h.2.1, h.2.2 (by decide) (by decide) (by decide)⟩

/-- C5: the latest-reading fetcher walks the name variants in resolver
order; every earlier variant that throws or returns zero rows is skipped
(a throw is recovered locally, never aborting the walk), and the first
variant whose query yields a record makes the fetcher return exactly
that record normalized — a record that is a `windowEnd`-maximum of the
variant's matching documents, with no comparison or merge across
variants; if every variant misses, the result is `null` (no data), not
an error. -/
theorem latest_fetcher_first_variant_hit :
    (∀ (store : Store) (key v : String) (pre suf : List String)
       (r : RawDoc) (rs : List RawDoc) (nd : Option NormDoc),
       locationVariants key = pre ++ v :: suf →
       (∀ u ∈ pre, variantMisses store u) →
       queryLatest store v = .ok (r :: rs) →
       normalizeDoc (some r) = .ok nd →
       getLatestData (some store) key = nd ∧
       r ∈ matchingDocs store v ∧
       ∀ d ∈ matchingDocs store v, d.windowEnd ≤ r.windowEnd) ∧
    (∀ (store : Store) (key : String),
       (∀ u ∈ locationVariants key, variantMisses store u) →
       getLatestData (some store) key = none) := by
  constructor
  · intro store key v pre suf r rs nd hvar hpre hq hn
    have hchar := queryLatest_ok_cons hq
    refine ⟨?_, hchar.2.1, hchar.2.2⟩
    rw [getLatestData_some, hvar,
      tryVariants_append_misses (queryLatest store) pre _
        (fun u hu => variantMisses_fetch (hpre u hu)),
      tryVariants_cons_hit (queryLatest store) v suf r rs nd hq hn]
  · intro store key h
    rw [getLatestData_some]
    have happ := tryVariants_append_misses (queryLatest store)
      (locationVariants key) [] (fun u hu => variantMisses_fetch (h u hu))
    simpa using happ

/-- C5 (witness): in `demoStore` the canonical-key variant
`"dows-lake"` throws and the alias variant `"Dow's Lake"` holds one
record; the fetcher recovers from the first variant's failure and
returns the alias record, normalized. -/
theorem latest_fetcher_first_variant_hit_witness :
    getLatestData (some demoStore) "dows-lake" =
      some (sampleReading "dows-lake" (some 1700000000000) (some "Safe")) ∧
    sampleDoc (.str "Dow's Lake") 1700000000000 (some "Safe") ∈
      matchingDocs demoStore "Dow's Lake" := by
  have h := latest_fetcher_first_variant_hit.1 demoStore "dows-lake" "Dow's Lake"
    ["dows-lake"] []
    (sampleDoc (.str "Dow's Lake") 1700000000000 (some "Safe")) []
    (some (sampleReading "dows-lake" (some 1700000000000) (some "Safe")))
    (by decide) (by decide) (by decide) (by decide)
  exact ⟨h.1, h.2.1⟩

/-- C4 (counterexample): with the container handle never initialized,
`GET /api/history/:location` responds
`500 {error: "Container not initialized"}` — not the empty JSON array
the claim promises for an unreachable store. -/
theorem history_unconfigured_returns_500 :
    historyRoute none "dows-lake" none 0 =
      .errorJson 500 "Container not initialized" ∧
    historyRoute none "dows-lake" none 0 ≠ .json 200 [] :=
  ⟨rfl, by decide⟩

/-- C4 (amended): with a *configured* container, the history endpoint
degrades gracefully — whenever every variant query throws or matches no
records, the response is the empty JSON array, never an error; with the
container handle never initialized, it instead responds HTTP 500. -/
theorem history_degrades_when_configured :
    (∀ (loc : String) (q : Option String) (now : Int),
       historyRoute none loc q now =
         .errorJson 500 "Container not initialized") ∧
    (∀ (store : Store) (loc : String) (q : Option String) (now : Int),
       (∀ v ∈ locationVariants loc,
         historyVariantMisses store v (now - jsHours q * msPerHour)) →
       historyRoute (some store) loc q now = .json 200 []) := by
  constructor
  · intro loc q now
    rfl
  · intro store loc q now h
    rw [historyRoute_some,
      historyLoop_all_misses _ _
        (fun u hu => historyVariantMisses_fetch (h u hu))]
    rfl

/-- C4 (witness): the amended graceful-degradation property at an empty
configured store. -/
theorem history_degrades_when_configured_witness :
    historyRoute (some { docs := [], failing := [] }) "dows-lake" none 0 =
      .json 200 [] :=
  history_degrades_when_configured.2 { docs := [], failing := [] }
    "dows-lake" none 0 (by decide)

/-- Store used as a test instance for the history window: one record
three hours old and one thirty minutes old (times relative to `now = 0`
in milliseconds). -/
def exampleHistoryStore : Store :=
  { docs := [sampleDoc (.str "dows-lake") (-10800000) (some "Safe"),
             sampleDoc (.str "dows-lake") (-1800000) (some "Safe")],
    failing := [] }

/-- C7: the history lookback defaults to 1 hour, with non-numeric or
absent input coercing to the default; the cutoff is `now` minus the
window; and the response body is exactly the records of the first
variant with any matches whose `windowEnd ≥ cutoff`, normalized and
ascending by `windowEnd`, with no merging across variants.  Concretely,
with `hours=2` a record from 3 hours ago is excluded and one from 30
minutes ago is included. -/
theorem history_window_default_cutoff_content :
    jsHours none = 1 ∧
    (∀ s : String, jsParseInt s = none → jsHours (some s) = 1) ∧
    (∀ (store : Store) (key v : String) (pre suf : List String)
       (q : Option String) (now : Int) (l : List RawDoc)
       (body : List (Option NormDoc)),
       locationVariants key = pre ++ v :: suf →
       (∀ u ∈ pre, historyVariantMisses store u (now - jsHours q * msPerHour)) →
       queryHistory store v (now - jsHours q * msPerHour) = .ok l →
       l ≠ [] →
       mapNormalize l = .ok body →
       historyRoute (some store) key q now = .json 200 body ∧
       (∀ d, d ∈ l ↔ d ∈ matchingDocs store v ∧
          now - jsHours q * msPerHour ≤ d.windowEnd) ∧
       l.Sorted byWindowEnd) ∧
    historyRoute (some exampleHistoryStore) "dows-lake" (some "2") 0 =
      .json 200 [some (sampleReading "dows-lake" (some (-1800000)) (some "Safe"))] := by
  refine ⟨rfl, ?_, ?_, by decide⟩
  · intro s hs
    simp [jsHours, hs]
  · intro store key v pre suf q now l body hvar hpre hq hne hmap
    have hchar := queryHistory_ok_char hq
    refine ⟨?_, hchar.1, hchar.2⟩
    obtain ⟨r, rs, rfl⟩ : ∃ r rs, l = r :: rs := by
      cases l with
      | nil => exact absurd rfl hne
      | cons a t => exact ⟨a, t, rfl⟩
    rw [historyRoute_some, hvar,
      historyLoop_append_misses _ pre _
        (fun u hu => historyVariantMisses_fetch (hpre u hu)),
      historyLoop_cons_hit _ v suf r rs hq]
    unfold historyRespond
    rw [hmap]

/-- C7 (witness): the content property instantiated on
`exampleHistoryStore` with `hours=2` at `now = 0`. -/
theorem history_window_default_cutoff_content_witness :
    historyRoute (some exampleHistoryStore) "dows-lake" (some "2") 0 =
      .json 200 [some (sampleReading "dows-lake" (some (-1800000)) (some "Safe"))] ∧
    [sampleDoc (.str "dows-lake") (-1800000) (some "Safe")].Sorted byWindowEnd := by
  have h := history_window_default_cutoff_content.2.2.1 exampleHistoryStore
    "dows-lake" "dows-lake" [] ["Dow's Lake"] (some "2") 0
    [sampleDoc (.str "dows-lake") (-1800000) (some "Safe")]
    [some (sampleReading "dows-lake" (some (-1800000)) (some "Safe"))]
    (by decide) (by simp) (by decide) (by decide) (by decide)
  exact ⟨h.1, h.2.2⟩

/-- Fetched readings for the three canonical locations with safety
statuses `Safe, Caution, Safe`. -/
def exampleReadings1 : List (String × Option NormDoc) :=
  [("dows-lake", some (sampleReading "dows-lake" (some 1) (some "Safe"))),
   ("fifth-avenue", some (sampleReading "fifth-avenue" (some 2) (some "Caution"))),
   ("nac", some (sampleReading "nac" (some 3) (some "Safe")))]

/-- Fetched readings where one location reports the unrecognized status
`"Warning"`. -/
def exampleReadings2 : List (String × Option NormDoc) :=
  [("dows-lake", some (sampleReading "dows-lake" (some 1) (some "Safe"))),
   ("fifth-avenue", some (sampleReading "fifth-avenue" (some 2) (some "Safe"))),
   ("nac", some (sampleReading "nac" (some 3) (some "Warning")))]

/-- C2: for every combination of fetched latest readings, the status
aggregator counts each present reading case-insensitively as exactly
the spec's classification (exactly `safe` is safe, exactly `caution` is
caution, everything else — absent included — is unsafe), and derives
`systemStatus` by strict priority No Data → Unsafe → Caution → Safe;
the readings `Safe, Caution, Safe` yield `"Caution"` with counts
3/2/1/0, and one `"Warning"` status forces `"Unsafe"`. -/
theorem status_aggregator_classification_and_priority :
    (∀ readings : List (String × Option NormDoc),
       (statusResponseOf (aggregate readings)).totalLocations =
         readings.countP entryPresent ∧
       (statusResponseOf (aggregate readings)).safeLocations =
         readings.countP (entrySpecClass "safe") ∧
       (statusResponseOf (aggregate readings)).cautionLocations =
         readings.countP (entrySpecClass "caution") ∧
       (statusResponseOf (aggregate readings)).unsafeLocations =
         readings.countP (entrySpecClass "unsafe") ∧
       (statusResponseOf (aggregate readings)).systemStatus =
         deriveSystemStatus (readings.countP entryPresent)
           (readings.countP (entrySpecClass "safe"))
           (readings.countP (entrySpecClass "caution"))
           (readings.countP (entrySpecClass "unsafe"))) ∧
    (∀ t s c u : Nat,
       (t = 0 → deriveSystemStatus t s c u = "No Data") ∧
       (t ≠ 0 → 0 < u → deriveSystemStatus t s c u = "Unsafe") ∧
       (t ≠ 0 → u = 0 → 0 < c → deriveSystemStatus t s c u = "Caution") ∧
       (t ≠ 0 → u = 0 → c = 0 → s = t →
         deriveSystemStatus t s c u = "Safe")) ∧
    ((statusResponseOf (aggregate exampleReadings1)).systemStatus = "Caution" ∧
     (statusResponseOf (aggregate exampleReadings1)).totalLocations = 3 ∧
     (statusResponseOf (aggregate exampleReadings1)).safeLocations = 2 ∧
     (statusResponseOf (aggregate exampleReadings1)).cautionLocations = 1 ∧
     (statusResponseOf (aggregate exampleReadings1)).unsafeLocations = 0) ∧
    (statusResponseOf (aggregate exampleReadings2)).systemStatus = "Unsafe" := by
  refine ⟨?_, ?_, by decide, by decide⟩
  · intro readings
    have hc := aggregate_counts readings
    rw [entrySpecClass_safe_eq, entrySpecClass_caution_eq,
      entrySpecClass_unsafe_eq]
    refine ⟨hc.1, hc.2.1, hc.2.2.1, hc.2.2.2, ?_⟩
    show deriveSystemStatus (aggregate readings).totalLocations
      (aggregate readings).safeLocations (aggregate readings).cautionLocations
      (aggregate readings).unsafeLocations = _
    rw [hc.1, hc.2.1, hc.2.2.1, hc.2.2.2]
  · intro t s c u
    refine ⟨?_, ?_, ?_, ?_⟩
    · intro h0
      simp [deriveSystemStatus, h0]
    · intro h0 hu
      simp [deriveSystemStatus, h0, hu]
    · intro h0 hu hcc
      simp [deriveSystemStatus, h0, hu, hcc]
    · intro h0 hu hcc hs
      simp [deriveSystemStatus, h0, hu, hcc, hs]

/-- C2 (witness): the priority derivation at concrete counts. -/
theorem status_aggregator_classification_and_priority_witness :
    deriveSystemStatus 0 0 0 0 = "No Data" ∧
    deriveSystemStatus 3 2 1 0 = "Caution" := by
  constructor
  · exact (status_aggregator_classification_and_priority.2.1 0 0 0 0).1 rfl
  · exact (status_aggregator_classification_and_priority.2.1 3 2 1 0).2.2.1
      (by decide) rfl (by decide)

/-- C9: for every store state (any container handle), the `/api/status`
response satisfies `safe + caution + unsafe = total`, and consequently
its `systemStatus` is one of No Data / Unsafe / Caution / Safe — the
defensive `"Unknown"` fallback is unreachable. -/
theorem status_counts_sum_and_no_unknown :
    ∀ container : Option Store,
      (statusRoute container).safeLocations +
        (statusRoute container).cautionLocations +
        (statusRoute container).unsafeLocations =
        (statusRoute container).totalLocations ∧
      ((statusRoute container).systemStatus = "No Data" ∨
       (statusRoute container).systemStatus = "Unsafe" ∨
       (statusRoute container).systemStatus = "Caution" ∨
       (statusRoute container).systemStatus = "Safe") := by
  intro container
  have hc := aggregate_counts
    (canonicalLocations.map (fun loc => (loc, getLatestData container loc)))
  have hsum := countP_classes_sum
    (canonicalLocations.map (fun loc => (loc, getLatestData container loc)))
  have hs : (statusRoute container).safeLocations +
      (statusRoute container).cautionLocations +
      (statusRoute container).unsafeLocations =
      (statusRoute container).totalLocations := by
    show (aggregate (canonicalLocations.map
        (fun loc => (loc, getLatestData container loc)))).safeLocations +
      (aggregate (canonicalLocations.map
        (fun loc => (loc, getLatestData container loc)))).cautionLocations +
      (aggregate (canonicalLocations.map
        (fun loc => (loc, getLatestData container loc)))).unsafeLocations =
      (aggregate (canonicalLocations.map
        (fun loc => (loc, getLatestData container loc)))).totalLocations
    rw [hc.1, hc.2.1, hc.2.2.1, hc.2.2.2]
    exact hsum
  exact ⟨hs, deriveSystemStatus_of_sum hs⟩

/-- Fetch oracle used as a test instance: the canonical-key variant
returns one record whose `location` field is absent. -/
def demoBadFetch (loc : String) : Except String (List RawDoc) :=
  if loc = "dows-lake" then .ok [sampleDoc LocField.absent 5 none] else .ok []

/-- C10: `normalizeDoc` yields a reading exactly for records whose
`location` is a string, and errors on a present record whose `location`
is absent or not a string; the latest-reading loop runs it inside the
per-variant catch, so such a record is absorbed as a variant failure and
resolution continues, while the history handler maps it outside any
handler, so one such record among the results fails the whole response. -/
theorem normalize_doc_partiality_and_handlers :
    (∀ r : RawDoc,
       (∃ s, r.location = LocField.str s) ↔
       ∃ nd, normalizeDoc (some r) = .ok (some nd)) ∧
    (∀ (fetch : String → Except String (List RawDoc)) (loc : String)
       (rest : List String) (r : RawDoc) (rs : List RawDoc) (e : String),
       fetch loc = .ok (r :: rs) →
       normalizeDoc (some r) = .error e →
       tryVariants fetch (loc :: rest) = tryVariants fetch rest) ∧
    (∀ (allResources : List RawDoc) (d : RawDoc),
       d ∈ allResources →
       (∀ s, d.location ≠ LocField.str s) →
       ∃ e, historyRespond allResources = .thrown e) := by
  refine ⟨?_, ?_, ?_⟩
  · intro r
    constructor
    · rintro ⟨s, hs⟩
      exact ⟨_, normalizeDoc_str hs⟩
    · rintro ⟨nd, hnd⟩
      cases hloc : r.location with
      | str s => exact ⟨s, rfl⟩
      | nonString => simp [normalizeDoc, hloc] at hnd
      | absent => simp [normalizeDoc, hloc] at hnd
  · intro fetch loc rest r rs e hq hn
    exact tryVariants_cons_badnorm fetch loc rest r rs e hq hn
  · intro allResources d hmem hbad
    have he : ∃ e, normalizeDoc (some d) = .error e := by
      cases hloc : d.location with
      | str s => exact absurd hloc (hbad s)
      | nonString =>
        exact ⟨"TypeError: raw.location.toLowerCase is not a function",
          by simp [normalizeDoc, hloc]⟩
      | absent =>
        exact ⟨"TypeError: Cannot read properties of undefined",
          by simp [normalizeDoc, hloc]⟩
    obtain ⟨e, hm⟩ := mapNormalize_error_of_mem allResources d hmem he
    exact ⟨e, by simp [historyRespond, hm]⟩

/-- C10 (witness): a concrete absent-`location` record is skipped by
the latest-reading variant loop but makes the history response throw. -/
theorem normalize_doc_partiality_and_handlers_witness :
    tryVariants demoBadFetch ["dows-lake", "Dow's Lake"] =
      tryVariants demoBadFetch ["Dow's Lake"] ∧
    ∃ e, historyRespond [sampleDoc LocField.absent 5 none] = .thrown e := by
  constructor
  · exact normalize_doc_partiality_and_handlers.2.1 demoBadFetch "dows-lake"
      ["Dow's Lake"] (sampleDoc LocField.absent 5 none) []
      "TypeError: Cannot read properties of undefined" (by decide) (by decide)
  · exact normalize_doc_partiality_and_handlers.2.2
      [sampleDoc LocField.absent 5 none] (sampleDoc LocField.absent 5 none)
      (by simp) (fun s h => by cases h)

end RideauCanal
